import Mathlib

/-!
Verification development for the buffer-backed copy-on-write sequence
container `faiss::XBufVector<T>` (src/faiss/XBufVector.h) and its
direct-pointer loader macros `X_READVECTOR` / `X_READXBVECTOR`.

The container is embedded shallowly: external read-only memory is a total
function `mem : Nat → T`; `buffer_` is an address into that memory
(`none` models the null pointer); `v_` is the heap-owned `std::vector<T>`
(`none` models the null pointer, `some v` the pointed-to vector's
contents). Operations that can throw return `Except`; assertion failures
and null dereferences (undefined behavior in C++) are marked with
dedicated error values so they stay distinguishable from thrown
exceptions.
-/

namespace XBuf

/-- Error signals of the embedded operations.
`invalidState` models the `std::out_of_range("XBufVector setBuffer() already
has non-NULL v_")` throw in `setBuffer` (the spec's Invalid-State error);
`outOfRange` models the index-out-of-range throws of `XBufVector::at` and of
`std::vector::at` (the spec's Out-Of-Range error); `assertViolation` marks a
failed `assert` (undefined behavior when assertions are disabled);
`nullDeref` marks a dereference of a null `buffer_` (undefined behavior). -/
inductive XBufError where
  | invalidState
  | outOfRange
  | assertViolation
  | nullDeref
deriving DecidableEq, Repr

instance {ε α : Type} [DecidableEq ε] [DecidableEq α] :
    DecidableEq (Except ε α) := fun a b =>
  match a, b with
  | .ok x, .ok y => decidable_of_iff (x = y) (by simp)
  | .error e, .error f => decidable_of_iff (e = f) (by simp)
  | .ok _, .error _ => isFalse (by simp)
  | .error _, .ok _ => isFalse (by simp)

/-- Shallow embedding of the state of `XBufVector<T>` (XBufVector.h lines
21-31): `buffer_` is the aliased pointer (`none` = nullptr), `size_` and
`capacity_` the aliased extent, and `v_` the owned `std::vector<T>*`
(`none` = nullptr, i.e. buffer mode; `some v` = owned mode). -/
structure XBufVector (T : Type) where
  buffer_ : Option Nat
  size_ : Nat
  capacity_ : Nat
  v_ : Option (List T)
deriving DecidableEq, Repr

/-- Default constructor `XBufVector()`: all fields null/zero. -/
def mkEmpty {T : Type} : XBufVector T := ⟨none, 0, 0, none⟩

/-- Constructor `XBufVector(T* buffer, size_t size, size_t capacity)`. -/
def mkBuffer {T : Type} (addr size capacity : Nat) : XBufVector T :=
  ⟨some addr, size, capacity, none⟩

/-- Constructor `XBufVector(std::vector<T>* v)`. -/
def mkOwned {T : Type} (v : List T) : XBufVector T := ⟨none, 0, 0, some v⟩

/-- Read `buffer_[i]` from external memory; dereferencing a null `buffer_`
is undefined behavior, marked `nullDeref`. -/
def bufRead {T : Type} (mem : Nat → T) : Option Nat → Nat → Except XBufError T
  | some a, i => .ok (mem (a + i))
  | none, _ => .error .nullDeref

variable {T : Type}

/-- The three storage modes the spec distinguishes. In the source they are
discriminated by nullness: `v_ != nullptr` is Owned; otherwise a non-null
`buffer_` is Aliased and a null `buffer_` is Empty. -/
inductive Mode where
  | Aliased
  | Owned
  | Empty
deriving DecidableEq, Repr

/-- The mode of a state, per the nullable-pointer discrimination the source
uses (comment at XBufVector.h lines 27-30). -/
def mode (s : XBufVector T) : Mode :=
  match s.v_ with
  | some _ => .Owned
  | none =>
    match s.buffer_ with
    | some _ => .Aliased
    | none => .Empty

/-- Embedding of `XBufVector::mutate` (lines 49-63): if `v_` is null,
allocate `new std::vector<T>(size_)` and copy `buffer_[i]` into it for
`i = 0..size_-1` (modelled as the mapped range; if `buffer_` is null and
`size_ > 0` the C++ loop dereferences null, which the model reads from
address 0 — such states are unreachable through the public interface);
in all cases the aliased attributes are then zeroed. -/
def mutate (mem : Nat → T) (s : XBufVector T) : XBufVector T :=
  match s.v_ with
  | some v => { buffer_ := none, size_ := 0, capacity_ := 0, v_ := some v }
  | none =>
    { buffer_ := none, size_ := 0, capacity_ := 0,
      v_ := some ((List.range s.size_).map fun i => mem (s.buffer_.getD 0 + i)) }

/-- Embedding of `XBufVector::setBuffer` (lines 65-72): throws if `v_` is
non-null, otherwise installs the aliased pointer, size and capacity. -/
def setBuffer (s : XBufVector T) (addr : Nat) (size capacity : Nat) :
    Except XBufError (XBufVector T) :=
  match s.v_ with
  | some _ => .error .invalidState
  | none => .ok ⟨some addr, size, capacity, none⟩

/-- Embedding of `XBufVector::size` (lines 74-77). -/
def size (s : XBufVector T) : Nat :=
  match s.v_ with
  | some v => v.length
  | none => s.size_

/-- Embedding of `XBufVector::empty` (lines 82-85). -/
def empty (s : XBufVector T) : Bool :=
  match s.v_ with
  | some v => v.isEmpty
  | none => s.size_ == 0

/-- Semantics of `std::vector<T>::resize(n, val)`: truncate to `n`, or pad
with copies of `val` up to `n`. -/
def vecResize (v : List T) (n : Nat) (val : T) : List T :=
  v.take n ++ List.replicate (n - v.length) val

/-- Embedding of `XBufVector::resize` (lines 87-90): `mutate()` then
`v_->resize(n, val)`. -/
def resize (mem : Nat → T) (s : XBufVector T) (n : Nat) (val : T) :
    XBufVector T :=
  let s' := mutate mem s
  { s' with v_ := some (vecResize (s'.v_.getD []) n val) }

/-- Embedding of `XBufVector::swap` (lines 92-95): `mutate()` then
`v_->swap(other)`; returns the new state and the contents handed back to
the caller's vector. -/
def swap (mem : Nat → T) (s : XBufVector T) (other : List T) :
    XBufVector T × List T :=
  let s' := mutate mem s
  ({ s' with v_ := some other }, s'.v_.getD [])

/-- Embedding of `XBufVector::push_back` (lines 154-157): `mutate()` then
`v_->push_back(value)`. -/
def push_back (mem : Nat → T) (s : XBufVector T) (value : T) : XBufVector T :=
  let s' := mutate mem s
  { s' with v_ := some (s'.v_.getD [] ++ [value]) }

/-- Embedding of `XBufVector::pop_back` (lines 159-162): `mutate()` then
`v_->pop_back()` (undefined behavior on an empty vector in C++; modelled as
`dropLast`, which the claims never exercise on an empty owned vector). -/
def pop_back (mem : Nat → T) (s : XBufVector T) : XBufVector T :=
  let s' := mutate mem s
  { s' with v_ := some ((s'.v_.getD []).dropLast) }

/-- Embedding of `XBufVector::operator[]` (lines 97-108): if `v_` is
non-null, forwards to `v_->at(index)` which throws `std::out_of_range` on a
bad index; otherwise `assert(index < size_)` (violation = undefined
behavior) and reads `buffer_[index]`. -/
def getIdx (mem : Nat → T) (s : XBufVector T) (index : Nat) :
    Except XBufError T :=
  match s.v_ with
  | some v =>
    if h : index < v.length then .ok (v.get ⟨index, h⟩) else .error .outOfRange
  | none =>
    if index < s.size_ then bufRead mem s.buffer_ index
    else .error .assertViolation

/-- Embedding of `XBufVector::at` (lines 110-123): if `v_` is non-null,
forwards to `v_->at(index)`; otherwise throws `std::out_of_range` when
`index >= size_` and reads `buffer_[index]` when in range. Like the C++
`at`, it only reads the state. -/
def atIdx (mem : Nat → T) (s : XBufVector T) (index : Nat) :
    Except XBufError T :=
  match s.v_ with
  | some v =>
    if h : index < v.length then .ok (v.get ⟨index, h⟩) else .error .outOfRange
  | none =>
    if index < s.size_ then bufRead mem s.buffer_ index
    else .error .outOfRange

/-- Where a `data()` pointer points: into the aliased buffer (possibly
null) or into the owned vector's storage. -/
inductive DataPtr (T : Type) where
  | toBuffer (addr : Option Nat)
  | toOwned (v : List T)
deriving DecidableEq, Repr

/-- Embedding of `XBufVector::data` (lines 125-134): `v_->data()` when
owned, else the raw `buffer_` pointer. -/
def data (s : XBufVector T) : DataPtr T :=
  match s.v_ with
  | some v => .toOwned v
  | none => .toBuffer s.buffer_

/-- Embedding of `XBufVector::front` (lines 136-143). Faithful to the
source: it asserts `size_ > 0` and reads `buffer_[0]` WITHOUT consulting
`v_` (unlike every other accessor there is no `if (v_ != nullptr)`
forwarding here). -/
def front (mem : Nat → T) (s : XBufVector T) : Except XBufError T :=
  if 0 < s.size_ then bufRead mem s.buffer_ 0 else .error .assertViolation

/-- Embedding of `XBufVector::back` (lines 145-152). Like `front`, reads
`buffer_[size_ - 1]` without consulting `v_`. -/
def back (mem : Nat → T) (s : XBufVector T) : Except XBufError T :=
  if 0 < s.size_ then bufRead mem s.buffer_ (s.size_ - 1) else .error .assertViolation

/-- Embedding of `XBufVector::clear` (lines 164-174): if `v_` is non-null,
`v_->clear()` then `v_ = nullptr` and return — note the aliased fields
`buffer_`, `size_`, `capacity_` are NOT touched on this branch; otherwise
zero the aliased fields. -/
def clear (s : XBufVector T) : XBufVector T :=
  match s.v_ with
  | some _ => { s with v_ := none }
  | none => ⟨none, 0, 0, none⟩

/-- Well-formedness invariant satisfied by every state reachable through
the public interface: in owned mode the aliased fields are zero (mutate
zeroes them; the owned constructor never sets them), and in buffer mode a
positive `size_` implies a non-null `buffer_`. -/
def WF (s : XBufVector T) : Prop :=
  (s.v_.isSome → s.buffer_ = none ∧ s.size_ = 0 ∧ s.capacity_ = 0) ∧
  (s.v_.isSome = false → 0 < s.size_ → s.buffer_.isSome)

instance (s : XBufVector T) : Decidable (WF s) := by
  unfold WF; infer_instance

/-- The public state-changing operations of the container, for reasoning
about operation sequences. -/
inductive Op (T : Type) where
  | setBuffer (addr : Nat) (size capacity : Nat)
  | resize (n : Nat) (val : T)
  | swap (other : List T)
  | push_back (value : T)
  | pop_back
  | clear
deriving DecidableEq, Repr

/-- Apply one public operation; a thrown exception (`setBuffer` on an owned
container) leaves the state unchanged. -/
def applyOp (mem : Nat → T) (s : XBufVector T) : Op T → XBufVector T
  | .setBuffer addr sz cap =>
    match setBuffer s addr sz cap with
    | .ok s' => s'
    | .error _ => s
  | .resize n val => resize mem s n val
  | .swap other => (swap mem s other).1
  | .push_back value => push_back mem s value
  | .pop_back => pop_back mem s
  | .clear => clear s

/-- Apply a sequence of public operations from left to right. -/
def applyOps (mem : Nat → T) (s : XBufVector T) (ops : List (Op T)) :
    XBufVector T :=
  ops.foldl (applyOp mem) s

/-! Loader: the direct-pointer branches of `X_READVECTOR` and
`X_READXBVECTOR` (XBufVector.h lines 183-209), taken when the stream
dynamic-casts to a `BufIOReader`. The reader itself is external to the
excerpt; it is abstracted by the single length header the macro reads with
`READANDCHECK(&size, 1)` and by its `readPointer` primitive, which hands
back a stable address for a requested span. -/

/-- Errors signalled on the direct-pointer load path. `corruptData` models
the `FAISS_THROW_IF_NOT(size >= 0 && size < (uint64_t{1} << 40))` bound
check failing (the spec's Corrupt-Data error); `bindError` propagates a
throw from `setBuffer`. -/
inductive LoadError where
  | corruptData
  | bindError (e : XBufError)
deriving DecidableEq, Repr

/-- Abstraction of a `BufIOReader`: `header` is the `size_t` value the
macro reads into `size` (a 64-bit unsigned value; a negative count written
by a corrupt producer reinterprets as a value at least 2^63), and
`readPointer` returns the direct pointer for a requested span. -/
structure BufIOReader where
  header : Nat
  readPointer : Nat → Nat

/-- Outcome of one macro invocation: the target container afterwards (the
original one when the macro threw, since a C++ throw leaves `vec`
untouched), the error if one was thrown, and the spans passed to
`reader->readPointer`, in order. -/
structure LoadResult (T : Type) where
  vec : XBufVector T
  err : Option LoadError
  requests : List Nat
deriving Repr

/-- Embedding of the direct-pointer branch of `X_READVECTOR` (lines
183-194): read the header, check `size >= 0 && size < 2^40`, then
`vec.setBuffer(reader->readPointer(size), size, size)`. -/
def X_READVECTOR_direct (r : BufIOReader) (vec : XBufVector T) :
    LoadResult T :=
  let sz := r.header
  if 0 ≤ sz ∧ sz < 2 ^ 40 then
    match setBuffer vec (r.readPointer sz) sz sz with
    | .ok v' => ⟨v', none, [sz]⟩
    | .error e => ⟨vec, some (.bindError e), [sz]⟩
  else ⟨vec, some .corruptData, []⟩

/-- Embedding of the direct-pointer branch of `X_READXBVECTOR` (lines
197-209): identical except for `size *= 4` after the bound check (a
`size_t` multiplication, hence reduced modulo 2^64) before both the
pointer request and the bind. -/
def X_READXBVECTOR_direct (r : BufIOReader) (vec : XBufVector T) :
    LoadResult T :=
  let sz := r.header
  if 0 ≤ sz ∧ sz < 2 ^ 40 then
    let sz4 := sz * 4 % 2 ^ 64
    match setBuffer vec (r.readPointer sz4) sz4 sz4 with
    | .ok v' => ⟨v', none, [sz4]⟩
    | .error e => ⟨vec, some (.bindError e), [sz4]⟩
  else ⟨vec, some .corruptData, []⟩

/-- The element the active storage holds at index `i` (meaningful when
`i < size s`): the owned vector's `i`-th entry in owned mode, the external
memory cell `buffer_ + i` in buffer mode. -/
def elemAt [Inhabited T] (mem : Nat → T) (s : XBufVector T) (i : Nat) : T :=
  match s.v_ with
  | some v => v.getD i default
  | none => mem (s.buffer_.getD 0 + i)

/-! Reachability: the well-formedness invariant holds for the initial
states and is preserved by every public operation. -/

theorem wf_mkEmpty : WF (mkEmpty (T := T)) := by
  simp [WF, mkEmpty]

theorem wf_mkBuffer (addr sz cap : Nat) : WF (mkBuffer (T := T) addr sz cap) := by
  simp [WF, mkBuffer]

theorem wf_mkOwned (v : List T) : WF (mkOwned v) := by
  simp [WF, mkOwned]

theorem wf_mutate (mem : Nat → T) (s : XBufVector T) : WF (mutate mem s) := by
  cases hv : s.v_ <;> simp [WF, mutate, hv]

theorem wf_applyOp (mem : Nat → T) (s : XBufVector T) (hWF : WF s)
    (op : Op T) : WF (applyOp mem s op) := by
  cases op with
  | setBuffer addr sz cap =>
    cases hv : s.v_ with
    | some v => simpa [applyOp, setBuffer, hv] using hWF
    | none => simp [applyOp, setBuffer, hv, WF]
  | resize n val => cases hv : s.v_ <;> simp [applyOp, resize, mutate, hv, WF]
  | swap other => cases hv : s.v_ <;> simp [applyOp, swap, mutate, hv, WF]
  | push_back value =>
    cases hv : s.v_ <;> simp [applyOp, push_back, mutate, hv, WF]
  | pop_back => cases hv : s.v_ <;> simp [applyOp, pop_back, mutate, hv, WF]
  | clear =>
    cases hv : s.v_ with
    | some v =>
      have h1 := hWF.1 (by simp [hv])
      simp [applyOp, clear, hv, WF, h1.1, h1.2.1, h1.2.2]
    | none => simp [applyOp, clear, hv, WF]

theorem wf_applyOps (mem : Nat → T) (s : XBufVector T) (hWF : WF s)
    (ops : List (Op T)) : WF (applyOps mem s ops) := by
  induction ops generalizing s with
  | nil => simpa [applyOps] using hWF
  | cons op rest ih =>
    simpa [applyOps] using ih (applyOp mem s op) (wf_applyOp mem s hWF op)

theorem mode_owned_iff (s : XBufVector T) :
    mode s = .Owned ↔ s.v_.isSome := by
  cases hv : s.v_ with
  | some v => simp [mode, hv]
  | none => cases hb : s.buffer_ <;> simp [mode, hv, hb]

theorem vecResize_of_length_le (v : List T) (n : Nat) (val : T)
    (h : v.length ≤ n) :
    vecResize v n val = v ++ List.replicate (n - v.length) val := by
  simp [vecResize, List.take_of_length_le h]

theorem mode_applyOp_owned (mem : Nat → T) (s : XBufVector T)
    (h : mode s = .Owned) (op : Op T) (hop : op ≠ Op.clear) :
    mode (applyOp mem s op) = .Owned := by
  obtain ⟨v, hv⟩ := Option.isSome_iff_exists.mp ((mode_owned_iff s).mp h)
  cases op with
  | setBuffer addr sz cap => simpa [applyOp, setBuffer, hv] using h
  | resize n val => simp [applyOp, resize, mutate, hv, mode]
  | swap other => simp [applyOp, swap, mutate, hv, mode]
  | push_back value => simp [applyOp, push_back, mutate, hv, mode]
  | pop_back => simp [applyOp, pop_back, mutate, hv, mode]
  | clear => exact absurd rfl hop

end XBuf

namespace XBuf

variable {T : Type}

/-- C1: Promotion correctness and idempotence. For a container in Aliased
mode holding `size_` elements at address `a`, `mutate` (the promotion step
every mutator runs first) allocates owned storage of exactly `size_`
elements, copies elements `0..size_-1` from the alias in order, and clears
all aliased attributes, leaving the container Owned; in particular after
`resize (size_ + K)` the mode is Owned, the size is `size_ + K`, and the
first `size_` elements equal the original aliased values. If the container
is already Owned, `mutate` is a no-op. -/
theorem promotion_correct_idempotent (mem : Nat → T) (s : XBufVector T)
    (hWF : WF s) :
    (∀ a, s.buffer_ = some a → mode s = .Aliased →
      mutate mem s =
        ⟨none, 0, 0, some ((List.range s.size_).map fun i => mem (a + i))⟩ ∧
      mode (mutate mem s) = .Owned ∧
      size (mutate mem s) = s.size_ ∧
      (∀ K val, mode (resize mem s (s.size_ + K) val) = .Owned ∧
        size (resize mem s (s.size_ + K) val) = s.size_ + K ∧
        ∀ i, i < s.size_ →
          atIdx mem (resize mem s (s.size_ + K) val) i = .ok (mem (a + i)))) ∧
    (mode s = .Owned → mutate mem s = s) := by
  constructor
  · intro a hb hmode
    have hv : s.v_ = none := by
      cases hv : s.v_ with
      | some v => simp [mode, hv] at hmode
      | none => rfl
    refine ⟨by simp [mutate, hv, hb], by simp [mutate, hv, mode],
      by simp [mutate, hv, size], ?_⟩
    intro K val
    have hres : resize mem s (s.size_ + K) val =
        ⟨none, 0, 0, some (((List.range s.size_).map fun i => mem (a + i)) ++
          List.replicate K val)⟩ := by
      simp [resize, mutate, hv, hb]
      rw [vecResize_of_length_le]
      · simp
      · simp
    refine ⟨by simp [hres, mode], by simp [hres, size], ?_⟩
    intro i hi
    have hilt : i < (((List.range s.size_).map fun i => mem (a + i)) ++
        List.replicate K val).length := by simp; omega
    simp only [hres, atIdx, hilt, dif_pos]
    congr 1
    rw [List.get_eq_getElem, List.getElem_append_left (by simpa using hi)]
    simp
  · intro hmode
    obtain ⟨v, hv⟩ := Option.isSome_iff_exists.mp ((mode_owned_iff s).mp hmode)
    have h1 := hWF.1 (by simp [hv])
    rcases s with ⟨b, sz, cap, vv⟩
    simp only at hv h1
    simp [mutate, hv, h1.1, h1.2.1, h1.2.2]

/-- Witness for C1 at a concrete aliased container: address 100, three
elements, memory cell `i` holding `i + 1`. -/
theorem promotion_correct_idempotent_witness :
    mutate (fun i => i + 1) (mkBuffer (T := Nat) 100 3 3) =
      ⟨none, 0, 0, some [101, 102, 103]⟩ ∧
    mode (mutate (fun i => i + 1) (mkBuffer (T := Nat) 100 3 3)) = .Owned ∧
    atIdx (fun i => i + 1) (resize (fun i => i + 1)
      (mkBuffer (T := Nat) 100 3 3) 5 0) 2 = .ok 103 := by
  have h := (promotion_correct_idempotent (fun i => i + 1)
    (mkBuffer (T := Nat) 100 3 3) (by decide)).1 100 rfl (by decide)
  refine ⟨by rw [h.1]; decide, h.2.1, ?_⟩
  have h3 := (h.2.2.2 2 0).2.2 2 (by decide)
  simpa using h3

/-- C2 counterexample: a container that has entered Owned mode can be in
Aliased mode later in its lifetime. Bind an alias, push_back (promotes to
Owned), clear (the owned branch of `clear` nulls `v_` and returns), then
bind an alias again — `setBuffer` succeeds because `v_` is null again, and
the container is Aliased after having been Owned. -/
theorem owned_then_aliased_cex :
    mode (applyOps (fun _ => (0 : Nat)) mkEmpty
      [.setBuffer 100 1 1, .push_back 5]) = .Owned ∧
    mode (applyOps (fun _ => (0 : Nat)) mkEmpty
      [.setBuffer 100 1 1, .push_back 5, .clear, .setBuffer 100 1 1]) =
      .Aliased := by
  decide

/-- C2 (amended): one-way promotion without an intervening clear. For every
sequence of public operations that contains no `clear`, a container in
Owned mode is still in Owned mode (in particular never Aliased) after the
sequence; re-entering Aliased mode requires an intervening `clear`, which
first resets the container. -/
theorem owned_one_way_without_clear (mem : Nat → T) (ops : List (Op T))
    (hops : ∀ op ∈ ops, op ≠ Op.clear) (s : XBufVector T)
    (hs : mode s = .Owned) :
    mode (applyOps mem s ops) = .Owned := by
  induction ops generalizing s with
  | nil => simpa [applyOps] using hs
  | cons op rest ih =>
    simp only [applyOps, List.foldl_cons] at *
    exact ih (fun o ho => hops o (List.mem_cons_of_mem _ ho))
      (applyOp mem s op)
      (mode_applyOp_owned mem s hs op (hops op (List.mem_cons_self _ _)))

/-- Witness for C2's amended theorem on a concrete clear-free sequence. -/
theorem owned_one_way_without_clear_witness :
    mode (applyOps (fun _ => (0 : Nat)) (mkOwned [1, 2])
      [.push_back 7, .resize 5 0, .pop_back, .setBuffer 3 4 5, .swap [9]]) =
      .Owned :=
  owned_one_way_without_clear _ _ (by decide) _ (by decide)

/-- C3 (code bug): `front` and `back` never forward to the owned vector.
After promotion the container's `size()` is 2, yet `front()` and `back()`
hit the `assert(size_ > 0)` failure (undefined behavior with assertions
disabled) because they read the zeroed aliased fields unconditionally,
contradicting the source comment that a non-null `v_` "will forward all
method calls to v_". In Aliased mode they do return elements 0 and
`size() - 1`. -/
theorem front_back_ignore_owned_storage :
    size (applyOps (fun i => i) (mkEmpty (T := Nat))
      [.setBuffer 100 1 1, .push_back 9]) = 2 ∧
    front (fun i => i) (applyOps (fun i => i) (mkEmpty (T := Nat))
      [.setBuffer 100 1 1, .push_back 9]) = .error .assertViolation ∧
    back (fun i => i) (applyOps (fun i => i) (mkEmpty (T := Nat))
      [.setBuffer 100 1 1, .push_back 9]) = .error .assertViolation ∧
    front (fun i => i) (mkBuffer (T := Nat) 100 2 2) = .ok 100 ∧
    back (fun i => i) (mkBuffer (T := Nat) 100 2 2) = .ok 101 := by
  decide

/-- C4: binding an alias onto an Owned container fails atomically —
`setBuffer` signals the Invalid-State error and the state (contents, size
and mode included) is unchanged; on a container that is not Owned (Empty
or Aliased) it succeeds and installs exactly the given pointer, length and
capacity, leaving the container Aliased. -/
theorem setBuffer_owned_fails_atomically (mem : Nat → T) (s : XBufVector T)
    (addr sz cap : Nat) :
    (mode s = .Owned →
      setBuffer s addr sz cap = .error .invalidState ∧
      applyOp mem s (.setBuffer addr sz cap) = s) ∧
    (mode s ≠ .Owned →
      setBuffer s addr sz cap = .ok ⟨some addr, sz, cap, none⟩ ∧
      mode (⟨some addr, sz, cap, none⟩ : XBufVector T) = .Aliased) := by
  constructor
  · intro h
    obtain ⟨v, hv⟩ := Option.isSome_iff_exists.mp ((mode_owned_iff s).mp h)
    simp [setBuffer, applyOp, hv]
  · intro h
    have hv : s.v_ = none := by
      cases hv : s.v_ with
      | some v => exact absurd ((mode_owned_iff s).mpr (by simp [hv])) h
      | none => rfl
    simp [setBuffer, hv, mode]

/-- Witness for C4 at a concrete Owned and a concrete Empty container. -/
theorem setBuffer_owned_fails_atomically_witness :
    setBuffer (mkOwned (T := Nat) [1]) 7 2 2 = .error .invalidState ∧
    setBuffer (mkEmpty (T := Nat)) 7 2 2 = .ok ⟨some 7, 2, 2, none⟩ :=
  ⟨((setBuffer_owned_fails_atomically (fun _ => 0) (mkOwned [1]) 7 2 2).1
      (by decide)).1,
   ((setBuffer_owned_fails_atomically (fun _ => 0) (mkEmpty) 7 2 2).2
      (by decide)).1⟩

/-- C5: alias fidelity of the zero-copy bind. For every N and source
address `a`, binding an alias on an Empty container succeeds and yields a
state whose size is N, whose element accesses return exactly the source
memory's values `mem (a + i)`, whose `data()` pointer equals the bound
pointer `a`, and whose owned vector is still null — the bind allocates no
owned storage and copies nothing (reads keep going through the alias). -/
theorem bind_alias_fidelity (mem : Nat → T) (a N : Nat) (s : XBufVector T)
    (hEmpty : mode s = .Empty) :
    ∃ s', setBuffer s a N N = .ok s' ∧
      size s' = N ∧
      (∀ i, i < N → atIdx mem s' i = .ok (mem (a + i))) ∧
      data s' = .toBuffer (some a) ∧
      s'.v_ = none := by
  have hv : s.v_ = none := by
    cases hv : s.v_ with
    | some v => simp [mode, hv] at hEmpty
    | none => rfl
  refine ⟨⟨some a, N, N, none⟩, by simp [setBuffer, hv], by simp [size],
    ?_, by simp [data], rfl⟩
  intro i hi
  simp [atIdx, hi, bufRead]

/-- Witness for C5 at a concrete bind of two elements at address 50. -/
theorem bind_alias_fidelity_witness :
    ∃ s', setBuffer (mkEmpty (T := Nat)) 50 2 2 = .ok s' ∧
      size s' = 2 ∧
      (∀ i, i < 2 → atIdx (fun n => n * 10) s' i = .ok ((50 + i) * 10)) ∧
      data s' = .toBuffer (some 50) ∧
      s'.v_ = none :=
  bind_alias_fidelity (fun n => n * 10) 50 2 mkEmpty (by decide)

/-- C6: size-encoding conventions of the loader. On the direct-pointer
path with a header value under the bound, `X_READVECTOR` requests exactly
`header` units from `readPointer` and binds the alias with length and
capacity `header`, while `X_READXBVECTOR` requests exactly `4 * header`
bytes and binds an alias of length and capacity `4 * header`. -/
theorem loader_size_conventions (r : BufIOReader) (vec : XBufVector T)
    (hv : vec.v_ = none) (hbound : r.header < 2 ^ 40) :
    (X_READVECTOR_direct r vec).requests = [r.header] ∧
    (X_READVECTOR_direct r vec).err = none ∧
    (X_READVECTOR_direct r vec).vec =
      ⟨some (r.readPointer r.header), r.header, r.header, none⟩ ∧
    (X_READXBVECTOR_direct r vec).requests = [4 * r.header] ∧
    (X_READXBVECTOR_direct r vec).err = none ∧
    (X_READXBVECTOR_direct r vec).vec =
      ⟨some (r.readPointer (4 * r.header)), 4 * r.header, 4 * r.header,
        none⟩ := by
  have h40 : (2 : Nat) ^ 40 = 1099511627776 := by norm_num
  rw [h40] at hbound
  have h4 : r.header * 4 % 18446744073709551616 = 4 * r.header := by
    rw [Nat.mod_eq_of_lt (by omega), Nat.mul_comm]
  simp [X_READVECTOR_direct, X_READXBVECTOR_direct, setBuffer, hv, hbound, h4]

/-- Witness for C6: header value 10 with byte-scale factor 4 requests and
binds a span of exactly 40, not 10. -/
theorem loader_size_conventions_witness :
    (X_READXBVECTOR_direct ⟨10, fun n => 1000 + n⟩
      (mkEmpty (T := Nat))).requests = [40] ∧
    (X_READXBVECTOR_direct ⟨10, fun n => 1000 + n⟩
      (mkEmpty (T := Nat))).vec = ⟨some 1040, 40, 40, none⟩ ∧
    (X_READVECTOR_direct ⟨10, fun n => 1000 + n⟩
      (mkEmpty (T := Nat))).requests = [10] := by
  have h := loader_size_conventions (T := Nat) ⟨10, fun n => 1000 + n⟩
    mkEmpty rfl (by norm_num)
  exact ⟨h.2.2.2.1, by simpa using h.2.2.2.2.2, h.1⟩

/-- C7: bound rejection. A header value of 2^40 or more (in particular any
negative 64-bit count reinterpreted as unsigned, which is at least 2^63)
makes both direct-pointer loaders signal Corrupt-Data with no pointer
request, no bind, and the target container unchanged; every header value
below 2^40 passes the validation (no Corrupt-Data is signalled). -/
theorem loader_bound_rejection (r : BufIOReader) (vec : XBufVector T) :
    (2 ^ 40 ≤ r.header →
      X_READVECTOR_direct r vec = ⟨vec, some .corruptData, []⟩ ∧
      X_READXBVECTOR_direct r vec = ⟨vec, some .corruptData, []⟩) ∧
    (r.header < 2 ^ 40 →
      (X_READVECTOR_direct r vec).err ≠ some LoadError.corruptData ∧
      (X_READXBVECTOR_direct r vec).err ≠ some LoadError.corruptData) := by
  have h40 : (2 : Nat) ^ 40 = 1099511627776 := by norm_num
  constructor
  · intro h
    rw [h40] at h
    have hcond : ¬ r.header < 1099511627776 := by omega
    simp [X_READVECTOR_direct, X_READXBVECTOR_direct, hcond]
  · intro h
    rw [h40] at h
    cases hv : vec.v_ with
    | some v =>
      simp [X_READVECTOR_direct, X_READXBVECTOR_direct, setBuffer, hv, h]
    | none =>
      simp [X_READVECTOR_direct, X_READXBVECTOR_direct, setBuffer, hv, h]

/-- Witness for C7: header exactly 2^40 is rejected, a negative count
reinterpreted as 2^63 is rejected, and header 10 passes validation. -/
theorem loader_bound_rejection_witness :
    X_READVECTOR_direct ⟨2 ^ 40, fun n => n⟩ (mkEmpty (T := Nat)) =
      ⟨mkEmpty, some .corruptData, []⟩ ∧
    X_READXBVECTOR_direct ⟨2 ^ 63, fun n => n⟩ (mkEmpty (T := Nat)) =
      ⟨mkEmpty, some .corruptData, []⟩ ∧
    (X_READVECTOR_direct ⟨10, fun n => n⟩ (mkEmpty (T := Nat))).err ≠
      some LoadError.corruptData :=
  ⟨((loader_bound_rejection ⟨2 ^ 40, fun n => n⟩ mkEmpty).1 (by norm_num)).1,
   ((loader_bound_rejection ⟨2 ^ 63, fun n => n⟩ mkEmpty).1 (by norm_num)).2,
   ((loader_bound_rejection ⟨10, fun n => n⟩ mkEmpty).2 (by norm_num)).1⟩

/-- C8: clear resets cleanly. For every reachable container (any prior
mode), after `clear` the mode is Empty, the size is 0, `empty()` is true,
a checked access at index 0 signals Out-Of-Range, and a second `clear` is
a no-op. -/
theorem clear_resets_cleanly (mem : Nat → T) (s : XBufVector T)
    (hWF : WF s) :
    mode (clear s) = .Empty ∧
    size (clear s) = 0 ∧
    empty (clear s) = true ∧
    atIdx mem (clear s) 0 = .error .outOfRange ∧
    clear (clear s) = clear s := by
  cases hv : s.v_ with
  | some v =>
    have h1 := hWF.1 (by simp [hv])
    rcases s with ⟨b, sz, cap, vv⟩
    simp only at hv h1
    subst hv
    simp [clear, mode, size, empty, atIdx, h1.1, h1.2.1, h1.2.2]
  | none => simp [clear, mode, size, empty, atIdx, hv]

/-- Witness for C8 on a concrete Owned container. -/
theorem clear_resets_cleanly_witness :
    mode (clear (mkOwned (T := Nat) [3, 4])) = .Empty ∧
    size (clear (mkOwned (T := Nat) [3, 4])) = 0 ∧
    empty (clear (mkOwned (T := Nat) [3, 4])) = true ∧
    atIdx (fun n => n) (clear (mkOwned (T := Nat) [3, 4])) 0 =
      .error .outOfRange ∧
    clear (clear (mkOwned (T := Nat) [3, 4])) =
      clear (mkOwned (T := Nat) [3, 4]) :=
  clear_resets_cleanly (fun n => n) (mkOwned [3, 4]) (by decide)

/-- C9: checked element access. For every reachable container and index,
`at` signals Out-Of-Range exactly when the index is at least `size()`, and
below `size()` it returns the element of whichever storage mode is active
(the owned vector's entry in Owned mode, the aliased memory cell in
Aliased mode). The embedding of `at` is a pure read: it returns no new
state, mirroring that the C++ `at` mutates nothing. -/
theorem at_checked_access [Inhabited T] (mem : Nat → T) (s : XBufVector T)
    (hWF : WF s) (i : Nat) :
    (size s ≤ i → atIdx mem s i = .error .outOfRange) ∧
    (i < size s → atIdx mem s i = .ok (elemAt mem s i)) := by
  cases hv : s.v_ with
  | some v =>
    constructor
    · intro h
      have hge : ¬ i < v.length := by
        simp only [size, hv] at h; omega
      simp [atIdx, hv, hge]
    · intro h
      have hlt : i < v.length := by simpa [size, hv] using h
      simp [atIdx, hv, hlt, elemAt, List.getD_eq_getElem?_getD,
        List.getElem?_eq_getElem hlt]
  | none =>
    constructor
    · intro h
      have hge : ¬ i < s.size_ := by
        simp only [size, hv] at h; omega
      simp [atIdx, hv, hge]
    · intro h
      have hlt : i < s.size_ := by simpa [size, hv] using h
      have hb := hWF.2 (by simp [hv]) (by omega)
      obtain ⟨a, ha⟩ := Option.isSome_iff_exists.mp hb
      simp [atIdx, hv, hlt, bufRead, ha, elemAt]

/-- Witness for C9 on a concrete aliased container, in and out of range. -/
theorem at_checked_access_witness :
    atIdx (fun n => n * 2) (mkBuffer (T := Nat) 10 3 3) 1 = .ok 22 ∧
    atIdx (fun n => n * 2) (mkBuffer (T := Nat) 10 3 3) 3 =
      .error .outOfRange := by
  have h1 := (at_checked_access (fun n => n * 2) (mkBuffer (T := Nat) 10 3 3)
    (by decide) 1).2 (by decide)
  have h2 := (at_checked_access (fun n => n * 2) (mkBuffer (T := Nat) 10 3 3)
    (by decide) 3).1 (by decide)
  exact ⟨by rw [h1]; decide, h2⟩

/-- C10: unchecked-style indexing is actually checked in Owned mode. In
Owned mode an out-of-range `operator[]` forwards to `v_->at(index)` and so
raises the out-of-range error instead of undefined behavior; only in
Aliased mode is `operator[]` unchecked — an `assert(index < size_)`, i.e.
undefined behavior when assertions are disabled. -/
theorem idx_checked_in_owned_mode (mem : Nat → T) (s : XBufVector T)
    (i : Nat) :
    (mode s = .Owned → size s ≤ i → getIdx mem s i = .error .outOfRange) ∧
    (mode s = .Aliased → s.size_ ≤ i →
      getIdx mem s i = .error .assertViolation) := by
  constructor
  · intro h hle
    obtain ⟨v, hv⟩ := Option.isSome_iff_exists.mp ((mode_owned_iff s).mp h)
    have hge : ¬ i < v.length := by
      simp only [size, hv] at hle; omega
    simp [getIdx, hv, hge]
  · intro h hle
    have hv : s.v_ = none := by
      cases hv : s.v_ with
      | some v => simp [mode, hv] at h
      | none => rfl
    have hge : ¬ i < s.size_ := Nat.not_lt.mpr hle
    simp [getIdx, hv, hge]

/-- Witness for C10: an Owned container rejects index 5 with the
out-of-range error; an Aliased container hits the assertion instead. -/
theorem idx_checked_in_owned_mode_witness :
    getIdx (fun n => n) (mkOwned (T := Nat) [1, 2]) 5 =
      .error .outOfRange ∧
    getIdx (fun n => n) (mkBuffer (T := Nat) 100 2 2) 5 =
      .error .assertViolation :=
  ⟨(idx_checked_in_owned_mode (fun n => n) (mkOwned [1, 2]) 5).1
      (by decide) (by decide),
   (idx_checked_in_owned_mode (fun n => n) (mkBuffer 100 2 2) 5).2
      (by decide) (by decide)⟩

end XBuf
